import Mathlib

/-!
Verification of the libosmium memory buffer, XML/PBF output encoders and
relation-member layout against their natural-language specification.

The definitions below are a shallow embedding of the C++ sources:

* `osmium::memory::Buffer` (memory/buffer.hpp): the struct fields
  `m_data`/`m_capacity`/`m_written`/`m_committed`/`m_auto_grow` and the
  emptiness of `m_memory` are modelled as a Lean structure; byte contents
  are abstracted, the committed region's item sequence is carried
  separately by `BufferWithItems` for `purge_removed`.
* the XML output block (xml_output_format.hpp): the osmChange
  current-operation state machine and the `write_meta` attribute emission.
* the PBF output format (pbf_output_format.hpp): the `PrimitiveBlock`
  accumulator and its flush conditions.
* `osmium::RelationMember` (osm/relation.hpp): the flags word.

Machine integers (`size_t`, `uint32_t`, ...) are modelled as `Nat`;
the quantities involved (buffer sizes, counts) never approach 2^32 in the
scenarios proved, and the C++ code performs no deliberate wrap-around
arithmetic on them.
-/

namespace Osmium

/-- Modelled from the spec: the alignment `A` (`osmium::memory::align_bytes`,
defined in memory/item.hpp which is not part of the sources given); the spec
says "implementation-defined, typically 8". -/
def align_bytes : Nat := 8

/-- `n` is a multiple of the alignment. -/
def Aligned (n : Nat) : Prop := n % align_bytes = 0

instance (n : Nat) : Decidable (Aligned n) := by unfold Aligned; infer_instance

/-- The error kinds thrown by the Buffer code:
`osmium::buffer_is_full`, `std::invalid_argument`, `std::logic_error`. -/
inductive BufferError where
  | bufferFull
  | invalidArgument
  | logicError
deriving DecidableEq, Repr

/-- State of an `osmium::memory::Buffer`.

* `data` is the address held by `m_data` (`none` = `nullptr`);
* `memNonempty` is `!m_memory.empty()`, i.e. whether the buffer currently
  owns internal storage;
* `capacity`, `written`, `committed` are the corresponding `size_t` fields;
* `autoGrow` is `m_auto_grow == auto_grow::yes`.

The byte contents of the memory area and the deprecated full callback
`m_full` are not part of the state: the callback is modelled as never set
(its default), so the callback branch of `reserve_space` does not fire. -/
structure Buffer where
  data : Option Nat
  memNonempty : Bool
  capacity : Nat
  written : Nat
  committed : Nat
  autoGrow : Bool
deriving DecidableEq, Repr

/-- `Buffer()` — the default constructor: the invalid (sentinel) buffer. -/
def mkInvalid : Buffer :=
  { data := none, memNonempty := false, capacity := 0, written := 0,
    committed := 0, autoGrow := false }

/-- `Buffer(unsigned char* data, size_t size)` — externally managed buffer
that is already full: `capacity = written = committed = size`; throws
`std::invalid_argument` when `size` is not a multiple of the alignment. -/
def mkExternalFull (addr : Nat) (size : Nat) : Except BufferError Buffer :=
  if size % align_bytes ≠ 0 then
    .error .invalidArgument
  else
    .ok { data := some addr, memNonempty := false, capacity := size,
          written := size, committed := size, autoGrow := false }

/-- `Buffer(unsigned char* data, size_t capacity, size_t committed)` —
externally managed buffer with `committed` bytes of data already in it. -/
def mkExternal (addr : Nat) (capacity : Nat) (committed : Nat) :
    Except BufferError Buffer :=
  if capacity % align_bytes ≠ 0 then
    .error .invalidArgument
  else if committed % align_bytes ≠ 0 then
    .error .invalidArgument
  else
    .ok { data := some addr, memNonempty := false, capacity := capacity,
          written := committed, committed := committed, autoGrow := false }

/-- `Buffer(size_t capacity, auto_grow auto_grow)` — internally managed
buffer. `m_memory` is a vector of `capacity` bytes, so it is empty exactly
when `capacity = 0`; `addr` stands for the address returned by the
allocation (`m_memory.data()`, which is the null pointer for an empty
vector, as in the mainstream standard libraries). -/
def mkInternal (capacity : Nat) (ag : Bool) (addr : Nat) :
    Except BufferError Buffer :=
  if capacity % align_bytes ≠ 0 then
    .error .invalidArgument
  else
    .ok { data := if capacity = 0 then none else some addr,
          memNonempty := decide (capacity ≠ 0), capacity := capacity,
          written := 0, committed := 0, autoGrow := ag }

/-- `explicit operator bool()` — a buffer is truthy iff `m_data` is not
the null pointer. -/
def bool_conv (b : Buffer) : Bool := b.data.isSome

/-- `Buffer::grow(size_t size)`: only with internal memory management
(else `std::logic_error`); if `size` is larger than the current capacity
the new size must be aligned (else `std::invalid_argument`) and the
memory is resized; otherwise nothing is done. -/
def grow (b : Buffer) (size : Nat) : Except BufferError Buffer :=
  if !b.memNonempty then
    .error .logicError
  else if b.capacity < size then
    if size % align_bytes ≠ 0 then
      .error .invalidArgument
    else
      .ok { b with capacity := size }
  else
    .ok b

/-- The capacity-doubling loop inside `reserve_space`:
`new_capacity = c; while (need > new_capacity) new_capacity *= 2;`
(the caller passes `c = m_capacity * 2`). When `c = 0` the C++ loop never
terminates; that case is unreachable because a buffer with internal
storage (`!m_memory.empty()`) has a positive capacity; the model returns
`0` there. -/
def doubleLoop (need : Nat) (c : Nat) : Nat :=
  if need > c then
    if c = 0 then 0
    else doubleLoop need (c * 2)
  else c
termination_by need - c
decreasing_by
  simp_wf
  omega

/-- `Buffer::reserve_space(size_t size)`: returns the new buffer state and
the offset of the reserved span (the old `m_written`). The deprecated
full callback is modelled as never set, so its branch is skipped. -/
def reserve_space (b : Buffer) (size : Nat) :
    Except BufferError (Buffer × Nat) :=
  if b.written + size > b.capacity then
    if b.memNonempty && b.autoGrow then
      match grow b (doubleLoop (b.written + size) (b.capacity * 2)) with
      | .error e => .error e
      | .ok b2 => .ok ({ b2 with written := b2.written + size }, b2.written)
    else
      .error .bufferFull
  else
    .ok ({ b with written := b.written + size }, b.written)

/-- `Buffer::commit()`: sets `m_committed := m_written` and returns the
previous `m_committed`. Precondition in the source: the buffer is valid
and aligned (`assert(is_aligned())`). -/
def commit (b : Buffer) : Buffer × Nat :=
  ({ b with committed := b.written }, b.committed)

/-- `Buffer::rollback()`: `m_written := m_committed`. -/
def rollback (b : Buffer) : Buffer :=
  { b with written := b.committed }

/-- `Buffer::clear()`: resets both watermarks, returns prior committed. -/
def clear (b : Buffer) : Buffer × Nat :=
  ({ b with written := 0, committed := 0 }, b.committed)

/-- An item stored in a buffer, as far as the buffer-level operations see
it: its padded size (`padded_size()`), its `removed()` flag, and an
abstract identity for its remaining bytes. -/
structure BufItem where
  psize : Nat
  removed : Bool
  payload : Nat
deriving DecidableEq, Repr

/-- `Buffer::add_item(const T& item)`: reserves `item.padded_size()` bytes
and copies the item there (the copy itself is byte-level and abstracted;
the watermark effect is that of `reserve_space`). -/
def add_item (b : Buffer) (it : BufItem) : Except BufferError (Buffer × Nat) :=
  reserve_space b it.psize

/-- `Buffer::add_buffer(const Buffer& buffer)`: reserves
`buffer.committed()` bytes and copies the committed contents there. -/
def add_buffer (b : Buffer) (other : Buffer) :
    Except BufferError (Buffer × Nat) :=
  reserve_space b other.committed

/-- Sum of the padded sizes of a list of items. -/
def sumPsize (l : List BufItem) : Nat :=
  l.foldr (fun it acc => it.psize + acc) 0

/-- A valid buffer together with the item sequence of its committed
region (the region `[data, data + committed)` that the iterators of
`purge_removed` walk). -/
structure BufferWithItems where
  buf : Buffer
  items : List BufItem
deriving DecidableEq, Repr

/-- The loop of `Buffer::purge_removed`: `r` and `w` are the byte offsets
of the read and write iterators. Returns the surviving items, the list of
`moving_in_buffer(old_offset, new_offset)` callback invocations in order,
and the final write offset (which becomes the new `m_written`). A removed
item is skipped; a surviving item is moved (with a callback) exactly when
the two iterators differ. -/
def purgeLoop : List BufItem → Nat → Nat → List BufItem × List (Nat × Nat) × Nat
  | [], _, w => ([], [], w)
  | it :: rest, r, w =>
    if it.removed then
      purgeLoop rest (r + it.psize) w
    else
      let res := purgeLoop rest (r + it.psize) (w + it.psize)
      (it :: res.1, (if r = w then res.2.1 else (r, w) :: res.2.1), res.2.2)

/-- `Buffer::purge_removed(callback)`: returns early when
`begin() == end()` (committed region empty); otherwise compacts the
committed items and sets `m_written` and `m_committed` to the final write
offset. The second component is the sequence of callback invocations. -/
def purge_removed (s : BufferWithItems) :
    BufferWithItems × List (Nat × Nat) :=
  if s.buf.committed = 0 then
    (s, [])
  else
    let res := purgeLoop s.items 0 0
    ({ buf := { s.buf with written := res.2.2, committed := res.2.2 },
       items := res.1 }, res.2.1)

/-- `operator==(const Buffer&, const Buffer&)`: both invalid, or both
valid with the same data pointer, capacity and committed count. -/
def buffer_eq (lhs rhs : Buffer) : Bool :=
  if !bool_conv lhs || !bool_conv rhs then
    !bool_conv lhs && !bool_conv rhs
  else
    lhs.data == rhs.data && lhs.capacity == rhs.capacity &&
      lhs.committed == rhs.committed

/-- `operator!=(const Buffer&, const Buffer&)`. -/
def buffer_ne (lhs rhs : Buffer) : Bool := !(buffer_eq lhs rhs)

/-- Ordering of the watermarks: `committed ≤ written ≤ capacity`
(`0 ≤ committed` is implicit in `Nat`). -/
def WOrder (b : Buffer) : Prop :=
  b.committed ≤ b.written ∧ b.written ≤ b.capacity

/-- The buffer invariant of the spec: ordered watermarks, and `committed`,
`written`, `capacity` all multiples of the alignment. -/
def Inv (b : Buffer) : Prop :=
  WOrder b ∧ Aligned b.committed ∧ Aligned b.written ∧ Aligned b.capacity

/-- Storage facts maintained by the constructors and `grow`: an
auto-growing buffer owns internal storage, and internal storage is
nonempty only with a positive capacity (`m_memory.size() == m_capacity`
after internal construction and after every resize). -/
def StorageWF (b : Buffer) : Prop :=
  (b.autoGrow = true → b.memNonempty = true) ∧
    (b.memNonempty = true → 0 < b.capacity)

instance (b : Buffer) : Decidable (WOrder b) := by
  unfold WOrder; infer_instance

instance (b : Buffer) : Decidable (Inv b) := by
  unfold Inv; infer_instance

instance (b : Buffer) : Decidable (StorageWF b) := by
  unfold StorageWF; infer_instance

/-! ### XML output block (xml_output_format.hpp) -/

/-- `XMLOutputBlock::operation` — the osmChange operation kind. -/
inductive Operation where
  | op_none
  | op_create
  | op_modify
  | op_delete
deriving DecidableEq, Repr

/-- Abstract tokens of the XML output stream: the `<create>/<modify>/
<delete>` open and close tags and an object body (`<node ...>` etc.,
identified by the object id). -/
inductive XmlTok where
  | openTag (op : Operation)
  | closeTag (op : Operation)
  | objBody (oid : Int)
deriving DecidableEq, Repr

/-- The fields of an OSM object that the osmChange operation derivation
reads: `visible()` and `version()` (plus the id for the body token). -/
structure ChangeObj where
  oid : Int
  visible : Bool
  version : Nat
deriving DecidableEq, Repr

/-- The operation derivation used in `XMLOutputBlock::node/way/relation`:
`visible ? (version == 1 ? create : modify) : delete`. -/
def derive_op (o : ChangeObj) : Operation :=
  if o.visible then
    (if o.version = 1 then .op_create else .op_modify)
  else
    .op_delete

/-- State of one `XMLOutputBlock` while encoding: the current operation
`m_last_op` and the output emitted so far. -/
structure XMLOutputBlockState where
  last_op : Operation
  out : List XmlTok
deriving DecidableEq, Repr

/-- The first `switch` of `open_close_op_tag`: tokens closing the previous
operation (nothing for `op_none`). -/
def closeToks : Operation → List XmlTok
  | .op_none => []
  | op => [.closeTag op]

/-- The second `switch` of `open_close_op_tag`: tokens opening the new
operation (nothing for `op_none`). -/
def openToks : Operation → List XmlTok
  | .op_none => []
  | op => [.openTag op]

/-- `XMLOutputBlock::open_close_op_tag(op)`: returns immediately when the
operation is unchanged; otherwise closes the previous operation tag,
opens the new one, and updates `m_last_op`. -/
def open_close_op_tag (st : XMLOutputBlockState) (op : Operation) :
    XMLOutputBlockState :=
  if op = st.last_op then st
  else { last_op := op, out := st.out ++ closeToks st.last_op ++ openToks op }

/-- The initial block state: `m_last_op {operation::op_none}` and empty
output. -/
def initBlockState : XMLOutputBlockState := { last_op := .op_none, out := [] }

/-- Encoding one object in `XMLOutputBlock::node/way/relation`: with
change ops enabled, first `open_close_op_tag(derived op)`, then the
object body. -/
def xmlObject (writeChangeOps : Bool) (st : XMLOutputBlockState)
    (o : ChangeObj) : XMLOutputBlockState :=
  let st1 := if writeChangeOps then open_close_op_tag st (derive_op o) else st
  { st1 with out := st1.out ++ [.objBody o.oid] }

/-- `XMLOutputBlock::operator()`: encode all objects of the buffer in
order, then (for osmChange) close any open operation tag via
`open_close_op_tag(op_none)`. -/
def xmlRunBlock (writeChangeOps : Bool) (objs : List ChangeObj) :
    XMLOutputBlockState :=
  let st := objs.foldl (xmlObject writeChangeOps) initBlockState
  if writeChangeOps then open_close_op_tag st .op_none else st

/-! ### XML `write_meta` and option plumbing (xml_output_format.hpp) -/

/-- The fields of an OSM object read by `XMLOutputBlock::write_meta`. -/
structure XmlObj where
  oid : Int
  version : Nat
  timestamp : Nat
  userAnonymous : Bool
  uid : Int
  changeset : Nat
  visible : Bool
deriving DecidableEq, Repr

/-- The attributes `write_meta` can emit, abstracted from their textual
form. -/
inductive MetaAttr where
  | idAttr (oid : Int)
  | versionAttr (v : Nat)
  | timestampAttr (t : Nat)
  | uidUserAttr (uid : Int)
  | changesetAttr (c : Nat)
  | visibleAttr (b : Bool)
deriving DecidableEq, Repr

/-- `XMLOutputBlock::write_meta(object)`: always the id; with
`m_add_metadata` also version/timestamp/uid+user/changeset when nonzero
resp. non-anonymous, and the `visible` attribute when
`m_write_visible_flag` is set. -/
def write_meta (add_metadata write_visible_flag : Bool) (o : XmlObj) :
    List MetaAttr :=
  [.idAttr o.oid] ++
    (if add_metadata then
      (if o.version ≠ 0 then [.versionAttr o.version] else []) ++
        (if o.timestamp ≠ 0 then [.timestampAttr o.timestamp] else []) ++
        (if !o.userAnonymous then [.uidUserAttr o.uid] else []) ++
        (if o.changeset ≠ 0 then [.changesetAttr o.changeset] else []) ++
        (if write_visible_flag then [.visibleAttr o.visible] else [])
    else [])

/-- The options of an output `File` relevant to the XML encoder, with the
option values as the strings stored on the file descriptor. -/
structure OutputFile where
  add_metadata : String
  force_visible_flag : String
  xml_change_format : String
  has_multiple_object_versions : Bool
deriving DecidableEq, Repr

/-- Modelled from the spec: `osmium::io::File::is_true(key)` (io/file.hpp
is not among the given sources) — an option with values in
`{"true","false"}` is active exactly when its value is the string
`"true"`. -/
def is_true (s : String) : Bool := s == "true"

/-- `XMLOutputFormat` constructor: `m_add_metadata`
(`file.get("add_metadata") != "false"`). -/
def fmt_add_metadata (f : OutputFile) : Bool := f.add_metadata != "false"

/-- `XMLOutputFormat` constructor: `m_write_visible_flag`
(`file.has_multiple_object_versions() || m_file.is_true("force_visible_flag")`). -/
def fmt_write_visible_flag (f : OutputFile) : Bool :=
  f.has_multiple_object_versions || is_true f.force_visible_flag

/-- `XMLOutputBlock` constructor: the block's `m_write_visible_flag` is
the format's flag AND NOT `write_change_ops`
(`m_write_visible_flag(write_visible_flag && !write_change_ops)`), where
`write_change_ops = m_file.is_true("xml_change_format")` as passed by
`XMLOutputFormat::write_buffer`. -/
def blk_write_visible_flag (f : OutputFile) : Bool :=
  fmt_write_visible_flag f && !(is_true f.xml_change_format)

/-- The meta attributes the XML encoder emits for object `o` of file `f`:
the whole plumbing `XMLOutputFormat` ctor → `write_buffer` →
`XMLOutputBlock` ctor → `write_meta`. -/
def xml_meta_for (f : OutputFile) (o : XmlObj) : List MetaAttr :=
  write_meta (fmt_add_metadata f) (blk_write_visible_flag f) o

/-! ### PBF output format (pbf_output_format.hpp) -/

/-- The group kind of a `PrimitiveGroup` the encoder routes items into
(`OSMFormat::PrimitiveGroup` message fields, plus `unknown`, the initial
`m_type`). -/
inductive PGroupType where
  | unknown
  | nodes
  | dense
  | ways
  | relations
deriving DecidableEq, Repr

/-- `max_entities_per_block = 8000`. -/
def max_entities_per_block : Nat := 8000

/-- Modelled from the spec: `max_uncompressed_blob_size` (io/detail/pbf.hpp
is not among the given sources); the spec gives 32 MiB. -/
def max_uncompressed_blob_size : Nat := 32 * 1024 * 1024

/-- `PrimitiveBlock::max_used_blob_size = max_uncompressed_blob_size * 95 / 100`. -/
def max_used_blob_size : Nat := max_uncompressed_blob_size * 95 / 100

/-- State of the `PrimitiveBlock` accumulator: `m_type`, `m_count`, and
`bytes = size()`, the sum of the primitive-group data, string-table and
dense-node sizes (the three enter `can_add` only through this sum). -/
structure PrimitiveBlockState where
  ptype : PGroupType
  count : Nat
  bytes : Nat
deriving DecidableEq, Repr

/-- `PrimitiveBlock::can_add(type)`: same group kind, entity count below
the cap, and accumulated size below 95% of the blob size. -/
def can_add (pb : PrimitiveBlockState) (t : PGroupType) : Bool :=
  if t ≠ pb.ptype then false
  else if pb.count ≥ max_entities_per_block then false
  else pb.bytes < max_used_blob_size

/-- `PrimitiveBlock::reset(type)`: clears data, string table, dense nodes
and count, and sets the new type. -/
def resetBlock (t : PGroupType) : PrimitiveBlockState :=
  { ptype := t, count := 0, bytes := 0 }

/-- State of the `PBFOutputFormat` encoder: the current accumulator and
the list of blocks serialized and submitted to the worker pool so far. -/
structure PBFEncoderState where
  block : PrimitiveBlockState
  flushed : List PrimitiveBlockState
deriving DecidableEq, Repr

/-- The encoder's initial state: an `unknown`-typed empty accumulator. -/
def initPBFState : PBFEncoderState :=
  { block := resetBlock .unknown, flushed := [] }

/-- `PBFOutputFormat::store_primitive_block()`: a block with zero entities
is not serialized; otherwise the block is serialized and submitted
(recorded on `flushed`). -/
def store_primitive_block (st : PBFEncoderState) : PBFEncoderState :=
  if st.block.count = 0 then st
  else { st with flushed := st.flushed ++ [st.block] }

/-- `PBFOutputFormat::switch_primitive_block_type(type)`: when the item
cannot be added, store the current block and reset to the new type. -/
def switch_primitive_block_type (st : PBFEncoderState) (t : PGroupType) :
    PBFEncoderState :=
  if can_add st.block t then st
  else { store_primitive_block st with block := resetBlock t }

/-- One item routed by the `node`/`way`/`relation` visitor methods: its
target group kind (dense for nodes in dense mode, nodes otherwise, ways,
relations) and the number of bytes its encoding adds to the accumulator. -/
structure PBFItem where
  kind : PGroupType
  addBytes : Nat
deriving DecidableEq, Repr

/-- Adding one item to the accumulator: the count rises by one
(`group()` / `add_dense_node`) and the size by the item's bytes. -/
def addToBlock (pb : PrimitiveBlockState) (it : PBFItem) :
    PrimitiveBlockState :=
  { pb with count := pb.count + 1, bytes := pb.bytes + it.addBytes }

/-- Processing one item in `node`/`way`/`relation`:
`switch_primitive_block_type(kind)` then append to the accumulator. -/
def pbfStep (st : PBFEncoderState) (it : PBFItem) : PBFEncoderState :=
  let st1 := switch_primitive_block_type st it.kind
  { st1 with block := addToBlock st1.block it }

/-- `PBFOutputFormat::close()` flushes the final partial block. -/
def pbfClose (st : PBFEncoderState) : PBFEncoderState :=
  store_primitive_block st

/-! ### RelationMember (osm/relation.hpp) -/

/-- The fixed fields of `osmium::RelationMember`: `m_ref`, `m_type` (the
underlying value of the `item_type` enum) and the 32-bit `m_flags` word. -/
structure RelationMember where
  ref : Int
  mtype : Nat
  flags : Nat
deriving DecidableEq, Repr

/-- `RelationMember::full_member()`: `m_flags == 1`. -/
def RelationMember.full_member (m : RelationMember) : Bool := m.flags == 1

/-- The `RelationMember` constructor: `m_flags(full ? 1 : 0)`. -/
def mkRelationMember (ref : Int) (mtype : Nat) (full : Bool) :
    RelationMember :=
  { ref := ref, mtype := mtype, flags := if full then 1 else 0 }

/-! ## Helper lemmas -/

theorem doubleLoop_spec (need : Nat) :
    ∀ m c, need - c ≤ m → 0 < c →
      ∃ k, doubleLoop need c = c * 2 ^ k ∧ need ≤ c * 2 ^ k ∧
        ∀ j, j < k → c * 2 ^ j < need := by
  intro m
  induction m with
  | zero =>
    intro c hm hc
    refine ⟨0, ?_, ?_, ?_⟩
    · rw [doubleLoop]
      have hng : ¬ need > c := by omega
      simp [hng]
    · simp only [pow_zero, mul_one]; omega
    · intro j hj; exact absurd hj (Nat.not_lt_zero j)
  | succ m ih =>
    intro c hm hc
    by_cases hgt : need > c
    · have hc0 : ¬ c = 0 := by omega
      have hstep : doubleLoop need c = doubleLoop need (c * 2) := by
        conv_lhs => rw [doubleLoop]
        simp [hgt, hc0]
      obtain ⟨k, hk1, hk2, hk3⟩ := ih (c * 2) (by omega) (by omega)
      refine ⟨k + 1, ?_, ?_, ?_⟩
      · rw [hstep, hk1]; ring
      · calc need ≤ c * 2 * 2 ^ k := hk2
          _ = c * 2 ^ (k + 1) := by ring
      · intro j hj
        cases j with
        | zero => simpa using hgt
        | succ j' =>
          have hlt := hk3 j' (by omega)
          calc c * 2 ^ (j' + 1) = c * 2 * 2 ^ j' := by ring
            _ < need := hlt
    · refine ⟨0, ?_, ?_, ?_⟩
      · rw [doubleLoop]; simp [hgt]
      · simp only [pow_zero, mul_one]; omega
      · intro j hj; exact absurd hj (Nat.not_lt_zero j)

theorem doubleLoop_result (need c : Nat) (hc : 0 < c) :
    ∃ k, doubleLoop need c = c * 2 ^ k ∧ need ≤ c * 2 ^ k ∧
      ∀ j, j < k → c * 2 ^ j < need :=
  doubleLoop_spec need (need - c) c le_rfl hc

theorem doubleLoop_aligned (need c : Nat) (ha : Aligned c) :
    Aligned (doubleLoop need c) := by
  rcases Nat.eq_zero_or_pos c with h0 | hpos
  · subst h0
    rw [doubleLoop]
    unfold Aligned
    split <;> simp
  · obtain ⟨k, hk, -, -⟩ := doubleLoop_result need c hpos
    rw [hk]
    unfold Aligned at ha ⊢
    simp [Nat.mul_mod, ha]

theorem grow_ok_intro (b : Buffer) (n : Nat) (hm : b.memNonempty = true)
    (hlt : b.capacity < n) (ha : n % align_bytes = 0) :
    grow b n = .ok { b with capacity := n } := by
  unfold grow
  simp [hm, hlt, ha]

theorem grow_ok_elim (b : Buffer) (n : Nat) (b' : Buffer)
    (h : grow b n = .ok b') :
    b.memNonempty = true ∧
      ((b.capacity < n ∧ n % align_bytes = 0 ∧
          b' = { b with capacity := n }) ∨
        (n ≤ b.capacity ∧ b' = b)) := by
  unfold grow at h
  split_ifs at h with h1 h2 h3
  · have h' : ({ b with capacity := n } : Buffer) = b' := Except.ok.inj h
    exact ⟨by simpa using h1, Or.inl ⟨h2, by omega, h'.symm⟩⟩
  · have h' : b = b' := Except.ok.inj h
    exact ⟨by simpa using h1, Or.inr ⟨by omega, h'.symm⟩⟩

theorem reserve_space_ok_cases (b : Buffer) (n : Nat) (b' : Buffer)
    (off : Nat) (hS : b.memNonempty = true → 0 < b.capacity)
    (h : reserve_space b n = .ok (b', off)) :
    off = b.written ∧
      ((b.written + n ≤ b.capacity ∧
          b' = { b with written := b.written + n }) ∨
        (b.capacity < b.written + n ∧ b.autoGrow = true ∧
          b.memNonempty = true ∧
          b' = { b with
                  capacity := doubleLoop (b.written + n) (b.capacity * 2),
                  written := b.written + n } ∧
          Aligned (doubleLoop (b.written + n) (b.capacity * 2)) ∧
          b.written + n ≤ doubleLoop (b.written + n) (b.capacity * 2))) := by
  unfold reserve_space at h
  split_ifs at h with h1 h2
  · -- over capacity, auto-growing with internal storage
    have h2' := h2
    simp only [Bool.and_eq_true] at h2'
    have hm : b.memNonempty = true := h2'.1
    have hag : b.autoGrow = true := h2'.2
    have hcpos : 0 < b.capacity := hS hm
    obtain ⟨k, hk, hge, -⟩ :=
      doubleLoop_result (b.written + n) (b.capacity * 2) (by omega)
    have hge' : b.written + n ≤
        doubleLoop (b.written + n) (b.capacity * 2) := by
      rw [hk]; exact hge
    have hgrow : b.capacity < doubleLoop (b.written + n) (b.capacity * 2) := by
      rw [hk]
      have h2k : (1 : Nat) ≤ 2 ^ k := Nat.one_le_two_pow
      nlinarith
    rcases hg : grow b (doubleLoop (b.written + n) (b.capacity * 2))
      with e | b2
    · rw [hg] at h; exact absurd h (by simp)
    · rw [hg] at h
      have h' := Except.ok.inj h
      have hb' : ({ b2 with written := b2.written + n } : Buffer) = b' :=
        congrArg Prod.fst h'
      have hoff : b2.written = off := congrArg Prod.snd h'
      obtain ⟨hmm, hcase⟩ := grow_ok_elim _ _ _ hg
      rcases hcase with ⟨hlt, hal, hb2⟩ | ⟨hle, hb2⟩
      · subst hb2
        exact ⟨hoff.symm, Or.inr ⟨by omega, hag, hm, hb'.symm, hal, hge'⟩⟩
      · omega
  · -- fits without growing
    have h' := Except.ok.inj h
    have hb' : ({ b with written := b.written + n } : Buffer) = b' :=
      congrArg Prod.fst h'
    have hoff : b.written = off := congrArg Prod.snd h'
    exact ⟨hoff.symm, Or.inl ⟨by omega, hb'.symm⟩⟩

theorem sumPsize_cons (it : BufItem) (l : List BufItem) :
    sumPsize (it :: l) = it.psize + sumPsize l := rfl

theorem sumPsize_filter_le (l : List BufItem) :
    sumPsize (l.filter fun it => !it.removed) ≤ sumPsize l := by
  induction l with
  | nil => simp [sumPsize]
  | cons it rest ih =>
    cases hr : it.removed with
    | true =>
      simp only [List.filter_cons, hr, Bool.not_true, sumPsize_cons]
      simp only [Bool.false_eq_true, if_false]
      omega
    | false =>
      simp only [List.filter_cons, hr, Bool.not_false, if_true, sumPsize_cons]
      omega

theorem sumPsize_aligned (l : List BufItem)
    (h : ∀ it ∈ l, Aligned it.psize) : Aligned (sumPsize l) := by
  induction l with
  | nil => simp [sumPsize, Aligned]
  | cons it rest ih =>
    have h1 : Aligned it.psize := h it (by simp)
    have h2 : Aligned (sumPsize rest) :=
      ih (fun x hx => h x (by simp [hx]))
    unfold Aligned align_bytes at *
    rw [sumPsize_cons]
    omega

theorem purgeLoop_fst (l : List BufItem) : ∀ r w,
    (purgeLoop l r w).1 = l.filter fun it => !it.removed := by
  induction l with
  | nil => intro r w; rfl
  | cons it rest ih =>
    intro r w
    cases hr : it.removed with
    | true => simp [purgeLoop, hr, ih, List.filter_cons]
    | false => simp [purgeLoop, hr, ih, List.filter_cons]

theorem purgeLoop_fin (l : List BufItem) : ∀ r w,
    (purgeLoop l r w).2.2 = w + sumPsize (purgeLoop l r w).1 := by
  induction l with
  | nil => intro r w; simp [purgeLoop, sumPsize]
  | cons it rest ih =>
    intro r w
    cases hr : it.removed with
    | true => simp [purgeLoop, hr, ih]
    | false =>
      simp only [purgeLoop, hr, Bool.false_eq_true, if_false, sumPsize_cons]
      rw [ih]
      omega

theorem purgeLoop_noRemoved (l : List BufItem) :
    (∀ it ∈ l, it.removed = false) → ∀ w,
      purgeLoop l w w = (l, [], w + sumPsize l) := by
  induction l with
  | nil => intro h w; simp [purgeLoop, sumPsize]
  | cons it rest ih =>
    intro h w
    have hit : it.removed = false := h it (by simp)
    have hrest : ∀ x ∈ rest, x.removed = false :=
      fun x hx => h x (List.mem_cons_of_mem _ hx)
    simp only [purgeLoop, hit, Bool.false_eq_true, if_false]
    rw [ih hrest (w + it.psize)]
    simp [sumPsize_cons]
    omega

theorem purge_removed_state (s : BufferWithItems)
    (h0 : s.buf.committed ≠ 0) :
    (purge_removed s).1 =
      { buf := { s.buf with
          written := sumPsize (s.items.filter fun it => !it.removed),
          committed := sumPsize (s.items.filter fun it => !it.removed) },
        items := s.items.filter fun it => !it.removed } := by
  unfold purge_removed
  rw [if_neg h0]
  have h1 := purgeLoop_fst s.items 0 0
  have h2 := purgeLoop_fin s.items 0 0
  rw [h1] at h2
  simp only []
  rw [h2, h1]
  simp

theorem purge_removed_zero (s : BufferWithItems)
    (h0 : s.buf.committed = 0) : purge_removed s = (s, []) := by
  unfold purge_removed
  rw [if_pos h0]

theorem derive_op_ne_none (o : ChangeObj) : derive_op o ≠ .op_none := by
  unfold derive_op
  split_ifs <;> simp

theorem openToks_of_ne_none (op : Operation) (h : op ≠ .op_none) :
    openToks op = [.openTag op] := by
  cases op with
  | op_none => exact absurd rfl h
  | op_create => rfl
  | op_modify => rfl
  | op_delete => rfl

theorem xmlObject_lastOp (st : XMLOutputBlockState) (o : ChangeObj) :
    (xmlObject true st o).last_op = derive_op o := by
  unfold xmlObject open_close_op_tag
  by_cases h : derive_op o = st.last_op
  · simp [h]
  · simp [h]

theorem can_add_type (pb : PrimitiveBlockState) (t : PGroupType)
    (h : can_add pb t = true) : t = pb.ptype := by
  unfold can_add at h
  split_ifs at h with h1 h2
  exact not_not.mp h1

theorem reserve_space_preserves (b : Buffer) (hI : Inv b) (hS : StorageWF b)
    (n : Nat) (b' : Buffer) (off : Nat)
    (h : reserve_space b n = .ok (b', off)) :
    b'.committed = b.committed ∧ b'.written = b.written + n ∧
      WOrder b' ∧ Aligned b'.committed ∧ Aligned b'.capacity ∧
      StorageWF b' ∧ (Aligned n → Aligned b'.written) := by
  obtain ⟨hoff, hcase⟩ := reserve_space_ok_cases b n b' off hS.2 h
  obtain ⟨⟨hcw, hwc⟩, hac, haw, hacap⟩ := hI
  obtain ⟨hag1, hag2⟩ := hS
  rcases hcase with ⟨hfit, rfl⟩ | ⟨hov, hag, hm, rfl, halL, hgeL⟩
  · refine ⟨rfl, rfl, ⟨?_, ?_⟩, hac, hacap, ⟨?_, ?_⟩, ?_⟩
    · simp only []; omega
    · simp only []; omega
    · intro hx; exact hag1 hx
    · intro hx; simpa using hag2 hx
    · intro han
      unfold Aligned align_bytes at *
      simp only []
      omega
  · refine ⟨rfl, rfl, ⟨?_, ?_⟩, hac, halL, ⟨?_, ?_⟩, ?_⟩
    · simp only []; omega
    · simp only []; omega
    · intro hx; exact hag1 hx
    · intro hx; simp only []; omega
    · intro han
      unfold Aligned align_bytes at *
      simp only []
      omega

/-! ## Claims -/

/-- C1: `reserve_space(n)` on a valid buffer returns a span of exactly `n`
bytes at the old `written` watermark and advances `written` by `n`; when
`written + n > capacity` and the buffer is not auto-growing it fails with
the buffer-full error; otherwise (auto-growing, which entails internal
storage) the capacity is doubled repeatedly, minimally, until `n` fits;
and a buffer without internal storage never changes its capacity. -/
theorem C1_reserve_space_contract (b : Buffer) (n : Nat)
    (_hvalid : b.data.isSome = true)
    (hauto : b.autoGrow = true → b.memNonempty = true)
    (hpos : b.memNonempty = true → 0 < b.capacity)
    (hcap : Aligned b.capacity) :
    (b.written + n ≤ b.capacity →
      reserve_space b n =
        .ok ({ b with written := b.written + n }, b.written)) ∧
    (b.capacity < b.written + n → b.autoGrow = false →
      reserve_space b n = .error .bufferFull) ∧
    (b.capacity < b.written + n → b.autoGrow = true →
      b.memNonempty = true ∧
      ∃ k, 1 ≤ k ∧
        reserve_space b n =
          .ok ({ b with capacity := b.capacity * 2 ^ k,
                        written := b.written + n }, b.written) ∧
        b.written + n ≤ b.capacity * 2 ^ k ∧
        ∀ j, 1 ≤ j → j < k → b.capacity * 2 ^ j < b.written + n) ∧
    (b.memNonempty = false → ∀ b' off,
      reserve_space b n = .ok (b', off) → b'.capacity = b.capacity) := by
  refine ⟨?_, ?_, ?_, ?_⟩
  · intro hfit
    unfold reserve_space
    have hng : ¬ b.written + n > b.capacity := by omega
    rw [if_neg hng]
  · intro hover hnag
    unfold reserve_space
    rw [if_pos (by omega : b.written + n > b.capacity)]
    simp [hnag]
  · intro hover hag
    have hm : b.memNonempty = true := hauto hag
    have hcpos : 0 < b.capacity := hpos hm
    obtain ⟨k, hk, hge, hmin⟩ :=
      doubleLoop_result (b.written + n) (b.capacity * 2) (by omega)
    have hpow : b.capacity * 2 * 2 ^ k = b.capacity * 2 ^ (k + 1) := by ring
    refine ⟨hm, k + 1, by omega, ?_, ?_, ?_⟩
    · unfold reserve_space
      rw [if_pos (by omega : b.written + n > b.capacity)]
      rw [if_pos (by simp [hm, hag] : (b.memNonempty && b.autoGrow) = true)]
      have hL : b.capacity < doubleLoop (b.written + n) (b.capacity * 2) := by
        rw [hk]
        have h2k : (1 : Nat) ≤ 2 ^ k := Nat.one_le_two_pow
        nlinarith
      have hAl : Aligned (doubleLoop (b.written + n) (b.capacity * 2)) := by
        apply doubleLoop_aligned
        unfold Aligned at hcap ⊢
        simp [Nat.mul_mod, hcap]
      rw [grow_ok_intro b _ hm hL hAl]
      rw [hk, hpow]
    · rw [← hpow]; exact hge
    · intro j hj1 hjk
      obtain ⟨j', rfl⟩ : ∃ j'', j = j'' + 1 := ⟨j - 1, by omega⟩
      have hlt := hmin j' (by omega)
      calc b.capacity * 2 ^ (j' + 1) = b.capacity * 2 * 2 ^ j' := by ring
        _ < b.written + n := hlt
  · intro hmf b' off h
    unfold reserve_space at h
    split_ifs at h with h1 h2
    · rw [hmf] at h2; simp at h2
    · have h' := Except.ok.inj h
      have hb' : ({ b with written := b.written + n } : Buffer) = b' :=
        congrArg Prod.fst h'
      rw [← hb']

/-- Witness for C1: on an internal auto-growing buffer of capacity 8 with
nothing written, reserving 4 bytes succeeds in place. -/
theorem C1_witness :
    reserve_space
        { data := some 1, memNonempty := true, capacity := 8, written := 0,
          committed := 0, autoGrow := true } 4 =
      .ok ({ data := some 1, memNonempty := true, capacity := 8,
             written := 4, committed := 0, autoGrow := true }, 0) := by
  have h := C1_reserve_space_contract
    { data := some 1, memNonempty := true, capacity := 8, written := 0,
      committed := 0, autoGrow := true } 4 (by decide)
    (fun _ => by decide) (fun _ => by decide) (by decide)
  exact h.1 (by decide)

/-- C6 counterexample: `Buffer(data, 0)` (external memory, size 0 — an
aligned size, so the constructor succeeds) yields a buffer whose boolean
conversion is `true` although its capacity is 0, so truthiness is not
equivalent to `capacity != 0`. -/
theorem C6_counterexample :
    mkExternalFull 1 0 =
      Except.ok { data := some 1, memNonempty := false, capacity := 0,
                  written := 0, committed := 0, autoGrow := false } ∧
    bool_conv { data := some 1, memNonempty := false, capacity := 0,
                written := 0, committed := 0, autoGrow := false } = true ∧
    ({ data := some 1, memNonempty := false, capacity := 0, written := 0,
       committed := 0, autoGrow := false } : Buffer).capacity = 0 := by
  refine ⟨?_, rfl, rfl⟩
  rfl

/-- C6 amended: the boolean conversion of a buffer is `true` exactly when
its data pointer is non-null; the default-constructed end-of-stream
sentinel has a null data pointer and capacity 0, but capacity 0 alone
does not characterize the sentinel (an external buffer of size 0 is
truthy). -/
theorem C6_amended_truthiness (b : Buffer) :
    (bool_conv b = true ↔ b.data ≠ none) ∧
    bool_conv mkInvalid = false ∧ mkInvalid.capacity = 0 := by
  refine ⟨?_, rfl, rfl⟩
  unfold bool_conv
  cases b.data <;> simp

/-- Witness for C6: the sentinel buffer is falsy. -/
theorem C6_witness : bool_conv mkInvalid = false :=
  (C6_amended_truthiness mkInvalid).2.1

/-- C7 counterexample: growing an externally memory-managed buffer throws
`std::logic_error`, not `std::invalid_argument` as the claim states. -/
theorem C7_counterexample :
    grow { data := some 1, memNonempty := false, capacity := 16,
           written := 0, committed := 0, autoGrow := false } 32 =
      Except.error BufferError.logicError ∧
    BufferError.logicError ≠ BufferError.invalidArgument := by
  exact ⟨rfl, by decide⟩

/-- C7 amended: growing an externally managed buffer fails with the
logic-error kind; the invalid-argument kind is raised for a size,
capacity or committed count that is not a multiple of the alignment (in
the constructors, and in `grow` for a misaligned enlargement of an
internal buffer). -/
theorem C7_amended_error_kinds :
    (∀ (b : Buffer) (n : Nat), b.memNonempty = false →
      grow b n = .error .logicError) ∧
    (∀ (b : Buffer) (n : Nat), b.memNonempty = true → b.capacity < n →
      ¬ Aligned n → grow b n = .error .invalidArgument) ∧
    (∀ addr size, ¬ Aligned size →
      mkExternalFull addr size = .error .invalidArgument) ∧
    (∀ addr cap com, ¬ Aligned cap →
      mkExternal addr cap com = .error .invalidArgument) ∧
    (∀ addr cap com, Aligned cap → ¬ Aligned com →
      mkExternal addr cap com = .error .invalidArgument) ∧
    (∀ cap ag addr, ¬ Aligned cap →
      mkInternal cap ag addr = .error .invalidArgument) := by
  refine ⟨?_, ?_, ?_, ?_, ?_, ?_⟩
  · intro b n hm
    unfold grow
    simp [hm]
  · intro b n hm hlt ha
    unfold grow Aligned at *
    simp [hm, hlt, ha]
  · intro addr size ha
    unfold mkExternalFull Aligned at *
    simp [ha]
  · intro addr cap com ha
    unfold mkExternal Aligned at *
    simp [ha]
  · intro addr cap com ha hc
    unfold mkExternal Aligned at *
    simp [ha, hc]
  · intro cap ag addr ha
    unfold mkInternal Aligned at *
    simp [ha]

/-- Witness for C7 amended: growing an external buffer of capacity 16
fails with the logic-error kind. -/
theorem C7_witness :
    grow { data := some 2, memNonempty := false, capacity := 16,
           written := 0, committed := 0, autoGrow := false } 24 =
      .error .logicError :=
  C7_amended_error_kinds.1
    { data := some 2, memNonempty := false, capacity := 16, written := 0,
      committed := 0, autoGrow := false } 24 rfl

/-- C9 counterexample: `full_member()` is `m_flags == 1`, so a member
whose flags word is 3 has bit 0 set yet `full_member()` returns false —
the claimed equivalence with "bit 0 is set" fails. -/
theorem C9_counterexample :
    RelationMember.full_member { ref := 0, mtype := 0, flags := 3 } =
      false ∧
    Nat.testBit 3 0 = true := by
  exact ⟨rfl, by decide⟩

/-- C9 amended: `full_member()` returns true exactly when the flags word
equals 1; the constructor only produces flags 0 or 1 (`full ? 1 : 0`),
and on such members the test coincides with bit 0 of the flags word. -/
theorem C9_amended_full_member (m : RelationMember) :
    (m.full_member = true ↔ m.flags = 1) ∧
    (∀ r t f, (mkRelationMember r t f).full_member = f) ∧
    (m.flags ≤ 1 → (m.full_member = true ↔ Nat.testBit m.flags 0 = true)) := by
  refine ⟨?_, ?_, ?_⟩
  · unfold RelationMember.full_member
    simp
  · intro r t f
    cases f <;> simp [mkRelationMember, RelationMember.full_member]
  · intro h
    have h01 : m.flags = 0 ∨ m.flags = 1 := by omega
    unfold RelationMember.full_member
    rcases h01 with h0 | h0 <;> simp [h0]

/-- Witness for C9 amended: a member built with `full = true` satisfies
`full_member()`. -/
theorem C9_witness :
    RelationMember.full_member (mkRelationMember 5 2 true) = true :=
  (C9_amended_full_member (mkRelationMember 5 2 true)).2.1 5 2 true

/-- C10: buffer equality holds exactly when both buffers are invalid, or
both are valid with the same data pointer, capacity and committed count;
it ignores the written watermark, the auto-grow setting and the storage
kind; two valid buffers at distinct addresses holding identical item
data compare unequal; and `!=` is the exact negation of `==`. -/
theorem C10_buffer_equality (b1 b2 : Buffer) :
    (buffer_eq b1 b2 = true ↔
      (b1.data = none ∧ b2.data = none) ∨
        (b1.data ≠ none ∧ b2.data ≠ none ∧ b1.data = b2.data ∧
          b1.capacity = b2.capacity ∧ b1.committed = b2.committed)) ∧
    buffer_ne b1 b2 = !(buffer_eq b1 b2) ∧
    (∀ w1 w2 g1 g2 m1 m2,
      buffer_eq { b1 with written := w1, autoGrow := g1, memNonempty := m1 }
          { b2 with written := w2, autoGrow := g2, memNonempty := m2 } =
        buffer_eq b1 b2) ∧
    (∀ (s1 s2 : BufferWithItems) (a1 a2 : Nat), s1.items = s2.items →
      s1.buf.data = some a1 → s2.buf.data = some a2 → a1 ≠ a2 →
      buffer_eq s1.buf s2.buf = false) := by
  refine ⟨?_, rfl, ?_, ?_⟩
  · unfold buffer_eq bool_conv
    cases h1 : b1.data with
    | none =>
      cases h2 : b2.data with
      | none => simp
      | some a => simp
    | some a =>
      cases h2 : b2.data with
      | none => simp
      | some a2 => simp [and_assoc]
  · intro w1 w2 g1 g2 m1 m2
    rfl
  · intro s1 s2 a1 a2 hitems h1 h2 hne
    unfold buffer_eq bool_conv
    rw [h1, h2]
    simp [hne]

/-- Witness for C10: two valid buffers at addresses 1 and 2 with the same
(empty) item lists compare unequal. -/
theorem C10_witness :
    buffer_eq
        { data := some 1, memNonempty := false, capacity := 8, written := 8,
          committed := 8, autoGrow := false }
        { data := some 2, memNonempty := false, capacity := 8, written := 8,
          committed := 8, autoGrow := false } = false := by
  have h := (C10_buffer_equality
    { data := some 1, memNonempty := false, capacity := 8, written := 8,
      committed := 8, autoGrow := false }
    { data := some 2, memNonempty := false, capacity := 8, written := 8,
      committed := 8, autoGrow := false }).2.2.2
    ⟨{ data := some 1, memNonempty := false, capacity := 8, written := 8,
       committed := 8, autoGrow := false }, []⟩
    ⟨{ data := some 2, memNonempty := false, capacity := 8, written := 8,
       committed := 8, autoGrow := false }, []⟩ 1 2 rfl rfl rfl (by decide)
  exact h

/-- C2 counterexample: `reserve_space` is one of the listed public
operations, yet reserving 3 bytes (a legal call) on a valid external
buffer satisfying all invariants leaves `written = 3`, which is not a
multiple of the alignment. -/
theorem C2_counterexample :
    Inv { data := some 1, memNonempty := false, capacity := 16,
          written := 0, committed := 0, autoGrow := false } ∧
    StorageWF { data := some 1, memNonempty := false, capacity := 16,
                written := 0, committed := 0, autoGrow := false } ∧
    reserve_space
        { data := some 1, memNonempty := false, capacity := 16,
          written := 0, committed := 0, autoGrow := false } 3 =
      .ok ({ data := some 1, memNonempty := false, capacity := 16,
             written := 3, committed := 0, autoGrow := false }, 0) ∧
    ¬ Aligned (3 : Nat) := by
  refine ⟨by decide, by decide, ?_, by decide⟩
  rfl

/-- C2 amended: on a valid buffer satisfying the invariant, every public
operation preserves `0 ≤ committed ≤ written ≤ capacity` and keeps
`committed` and `capacity` multiples of the alignment; `written` stays a
multiple of the alignment provided the reserved size is one (which is the
case for `add_item`, which reserves a padded size, and `add_buffer`,
which reserves a committed count) — a `reserve_space` of an unaligned
size keeps the ordering but leaves `written` unaligned until the caller
restores alignment, as `commit`'s `is_aligned` precondition demands. -/
theorem C2_invariant_preservation (b : Buffer) (hI : Inv b)
    (hS : StorageWF b) :
    (∀ n b' off, reserve_space b n = .ok (b', off) →
      WOrder b' ∧ Aligned b'.committed ∧ Aligned b'.capacity ∧
        StorageWF b') ∧
    (∀ n, Aligned n → ∀ b' off, reserve_space b n = .ok (b', off) →
      Inv b' ∧ StorageWF b') ∧
    (Inv (commit b).1 ∧ StorageWF (commit b).1) ∧
    (Inv (rollback b) ∧ StorageWF (rollback b)) ∧
    (Inv (clear b).1 ∧ StorageWF (clear b).1) ∧
    (∀ n b', grow b n = .ok b' → Inv b' ∧ StorageWF b') ∧
    (∀ it : BufItem, Aligned it.psize → ∀ b' off,
      add_item b it = .ok (b', off) → Inv b' ∧ StorageWF b') ∧
    (∀ other : Buffer, Inv other → ∀ b' off,
      add_buffer b other = .ok (b', off) → Inv b' ∧ StorageWF b') ∧
    (∀ items : List BufItem, b.committed = sumPsize items →
      (∀ it ∈ items, Aligned it.psize) →
      Inv (purge_removed { buf := b, items := items }).1.buf ∧
        StorageWF (purge_removed { buf := b, items := items }).1.buf) := by
  have hres : ∀ n b' off, reserve_space b n = .ok (b', off) →
      b'.committed = b.committed ∧ b'.written = b.written + n ∧
        WOrder b' ∧ Aligned b'.committed ∧ Aligned b'.capacity ∧
        StorageWF b' ∧ (Aligned n → Aligned b'.written) :=
    fun n b' off h => reserve_space_preserves b hI hS n b' off h
  obtain ⟨⟨hcw, hwc⟩, hac, haw, hacap⟩ := hI
  obtain ⟨hag1, hag2⟩ := hS
  refine ⟨?_, ?_, ?_, ?_, ?_, ?_, ?_, ?_, ?_⟩
  · intro n b' off h
    obtain ⟨-, -, h3, h4, h5, h6, -⟩ := hres n b' off h
    exact ⟨h3, h4, h5, h6⟩
  · intro n han b' off h
    obtain ⟨-, -, h3, h4, h5, h6, h7⟩ := hres n b' off h
    exact ⟨⟨h3, h4, h7 han, h5⟩, h6⟩
  · refine ⟨⟨⟨?_, ?_⟩, ?_, ?_, ?_⟩, ?_, ?_⟩
    · simp only [commit]; omega
    · simp only [commit]; exact hwc
    · exact haw
    · exact haw
    · exact hacap
    · intro hx; exact hag1 hx
    · intro hx; exact hag2 hx
  · refine ⟨⟨⟨?_, ?_⟩, ?_, ?_, ?_⟩, ?_, ?_⟩
    · simp only [rollback]; omega
    · simp only [rollback]; omega
    · exact hac
    · exact hac
    · exact hacap
    · intro hx; exact hag1 hx
    · intro hx; exact hag2 hx
  · refine ⟨⟨⟨?_, ?_⟩, ?_, ?_, ?_⟩, ?_, ?_⟩
    · simp only [clear]; omega
    · simp only [clear]; omega
    · simp [clear, Aligned]
    · simp [clear, Aligned]
    · exact hacap
    · intro hx; exact hag1 hx
    · intro hx; exact hag2 hx
  · intro n b' h
    obtain ⟨hm, hcase⟩ := grow_ok_elim b n b' h
    rcases hcase with ⟨hlt, hal, rfl⟩ | ⟨hle, rfl⟩
    · refine ⟨⟨⟨?_, ?_⟩, ?_, ?_, ?_⟩, ?_, ?_⟩
      · simp only []; omega
      · simp only []; omega
      · exact hac
      · exact haw
      · exact hal
      · intro hx; exact hag1 hx
      · intro hx; simp only []; omega
    · exact ⟨⟨⟨hcw, hwc⟩, hac, haw, hacap⟩, hag1, hag2⟩
  · intro it hit b' off h
    obtain ⟨-, -, h3, h4, h5, h6, h7⟩ := hres it.psize b' off h
    exact ⟨⟨h3, h4, h7 hit, h5⟩, h6⟩
  · intro other hother b' off h
    obtain ⟨-, -, h3, h4, h5, h6, h7⟩ := hres other.committed b' off h
    exact ⟨⟨h3, h4, h7 hother.2.1, h5⟩, h6⟩
  · intro items hcs hali
    by_cases h0 : b.committed = 0
    · rw [purge_removed_zero _ (by simpa using h0)]
      exact ⟨⟨⟨hcw, hwc⟩, hac, haw, hacap⟩, hag1, hag2⟩
    · rw [purge_removed_state _ (by simpa using h0)]
      have hle : sumPsize (items.filter fun it => !it.removed) ≤
          sumPsize items := sumPsize_filter_le items
      have hal : Aligned (sumPsize (items.filter fun it => !it.removed)) := by
        apply sumPsize_aligned
        intro x hx
        exact hali x (List.mem_of_mem_filter hx)
      refine ⟨⟨⟨?_, ?_⟩, hal, hal, hacap⟩, ?_, ?_⟩
      · simp only []; omega
      · simp only []; omega
      · intro hx; exact hag1 hx
      · intro hx; simp only []; omega

/-- Witness for C2 amended: committing a fully written aligned external
buffer keeps the invariant. -/
theorem C2_witness :
    Inv (commit { data := some 1, memNonempty := false, capacity := 16,
                  written := 8, committed := 0, autoGrow := false }).1 ∧
    StorageWF (commit { data := some 1, memNonempty := false, capacity := 16,
                        written := 8, committed := 0,
                        autoGrow := false }).1 :=
  (C2_invariant_preservation
    { data := some 1, memNonempty := false, capacity := 16, written := 8,
      committed := 0, autoGrow := false } (by decide) (by decide)).2.2.1

/-- C3 counterexample: a valid buffer with one committed non-removed item
but uncommitted data beyond it (`written = 16 > committed = 8`) is
changed by `purge_removed`: the uncommitted region is discarded
(`written` becomes 8), so `purge_removed` is not a no-op on every buffer
without removed items. -/
theorem C3_counterexample :
    (purge_removed
        { buf := { data := some 1, memNonempty := false, capacity := 16,
                   written := 16, committed := 8, autoGrow := false },
          items := [{ psize := 8, removed := false, payload := 0 }] }).1 ≠
      { buf := { data := some 1, memNonempty := false, capacity := 16,
                 written := 16, committed := 8, autoGrow := false },
        items := [{ psize := 8, removed := false, payload := 0 }] } := by
  decide

/-- C3 amended: on a buffer whose committed region matches its item list,
contains no removed items, and has no uncommitted data
(`written = committed`), `purge_removed` is a no-op and invokes no
callback (when `committed ≠ written` it additionally discards the
uncommitted region by setting `written := committed`); and applying
`purge_removed` twice always yields the same state as applying it
once. -/
theorem C3_purge_noop_and_idempotent :
    (∀ s : BufferWithItems,
      (∀ it ∈ s.items, it.removed = false) →
      s.buf.written = s.buf.committed →
      s.buf.committed = sumPsize s.items →
      purge_removed s = (s, [])) ∧
    (∀ s : BufferWithItems,
      (purge_removed (purge_removed s).1).1 = (purge_removed s).1) := by
  constructor
  · intro s hnr hwc hcs
    obtain ⟨⟨d, mn, cap, w, com, ag⟩, items⟩ := s
    simp only [] at hnr hwc hcs
    subst hwc
    subst hcs
    by_cases h0 : sumPsize items = 0
    · exact purge_removed_zero _ (by simpa using h0)
    · unfold purge_removed
      rw [if_neg (by simpa using h0)]
      rw [purgeLoop_noRemoved items hnr 0]
      simp
  · intro s
    by_cases h0 : s.buf.committed = 0
    · have h1 := purge_removed_zero s h0
      rw [h1, h1]
    · rw [purge_removed_state s h0]
      have hLL : (s.items.filter fun it => !it.removed).filter
          (fun it => !it.removed) = s.items.filter fun it => !it.removed := by
        apply List.filter_eq_self.mpr
        intro a ha
        exact (List.mem_filter.mp ha).2
      by_cases hF : sumPsize (s.items.filter fun it => !it.removed) = 0
      · rw [purge_removed_zero _ (by simpa using hF)]
      · rw [purge_removed_state _ (by simpa using hF)]
        simp only [hLL]

/-- Witness for C3: a buffer with a single committed, non-removed item
and no uncommitted data is untouched by `purge_removed`. -/
theorem C3_witness :
    purge_removed
        { buf := { data := some 1, memNonempty := false, capacity := 16,
                   written := 8, committed := 8, autoGrow := false },
          items := [{ psize := 8, removed := false, payload := 0 }] } =
      ({ buf := { data := some 1, memNonempty := false, capacity := 16,
                  written := 8, committed := 8, autoGrow := false },
         items := [{ psize := 8, removed := false, payload := 0 }] },
        []) :=
  C3_purge_noop_and_idempotent.1
    { buf := { data := some 1, memNonempty := false, capacity := 16,
               written := 8, committed := 8, autoGrow := false },
      items := [{ psize := 8, removed := false, payload := 0 }] }
    (by decide) (by decide) (by decide)

theorem xmlFold_lastOp (objs : List ChangeObj) :
    ∀ st : XMLOutputBlockState,
      (objs.foldl (xmlObject true) st).last_op =
        (objs.map derive_op).getLastD st.last_op := by
  induction objs with
  | nil => intro st; rfl
  | cons o rest ih =>
    intro st
    simp only [List.foldl_cons, List.map_cons, List.getLastD_cons]
    rw [ih, xmlObject_lastOp]

/-- C4: the osmChange encoder starts each block with current operation
`none`; an object's operation is derived as delete when not visible, else
create when its version is 1, else modify; an object whose derived
operation equals the current one emits only its body (no operation
tags); an object whose derived operation differs closes the previous
operation tag (if any), opens the new one, and updates the current
operation — so tags are emitted exactly at transitions between
successive objects; after encoding a list, the current operation is the
derived operation of the last object. -/
theorem C4_osmchange_operation_tags :
    (∀ o : ChangeObj,
      (derive_op o = .op_delete ↔ o.visible = false) ∧
      (derive_op o = .op_create ↔ o.visible = true ∧ o.version = 1) ∧
      (derive_op o = .op_modify ↔ o.visible = true ∧ o.version ≠ 1)) ∧
    initBlockState.last_op = .op_none ∧
    (∀ (st : XMLOutputBlockState) (o : ChangeObj),
      derive_op o = st.last_op →
      xmlObject true st o = { st with out := st.out ++ [.objBody o.oid] }) ∧
    (∀ (st : XMLOutputBlockState) (o : ChangeObj),
      derive_op o ≠ st.last_op →
      xmlObject true st o =
        { last_op := derive_op o,
          out := st.out ++ closeToks st.last_op ++
            [XmlTok.openTag (derive_op o), XmlTok.objBody o.oid] }) ∧
    (∀ (objs : List ChangeObj) (st : XMLOutputBlockState),
      (objs.foldl (xmlObject true) st).last_op =
        (objs.map derive_op).getLastD st.last_op) := by
  refine ⟨?_, rfl, ?_, ?_, ?_⟩
  · intro o
    unfold derive_op
    by_cases hv : o.visible <;> by_cases h1 : o.version = 1 <;>
      simp [hv, h1]
  · intro st o h
    unfold xmlObject open_close_op_tag
    rw [if_pos h]
    simp
  · intro st o h
    unfold xmlObject open_close_op_tag
    rw [if_neg h]
    rw [openToks_of_ne_none _ (derive_op_ne_none o)]
    simp [List.append_assoc]
  · intro objs st
    exact xmlFold_lastOp objs st

/-- Witness for C4: with current operation `create`, an object deriving
to `create` emits only its body. -/
theorem C4_witness :
    xmlObject true { last_op := .op_create, out := [] }
        { oid := 7, visible := true, version := 1 } =
      { last_op := Operation.op_create, out := [XmlTok.objBody 7] } := by
  have h := C4_osmchange_operation_tags.2.2.1
    { last_op := .op_create, out := [] }
    { oid := 7, visible := true, version := 1 } (by decide)
  exact h

/-- C5 counterexample: at stream start the accumulator is the empty
`unknown`-typed block; the first node cannot be added to it
(`can_add = false`), yet nothing is serialized or submitted — the block
is reset without being flushed, so "flushed exactly when the next item
cannot be added" fails. -/
theorem C5_counterexample :
    can_add (resetBlock .unknown) .dense = false ∧
    (pbfStep initPBFState { kind := .dense, addBytes := 24 }).flushed =
      [] := by
  exact ⟨rfl, rfl⟩

/-- C5 amended: processing an item flushes (serializes and submits) the
current primitive block exactly when the item cannot be added to it AND
the block contains at least one entity; `can_add` fails exactly when the
item's group kind differs from the block's, the entity count has reached
8000, or the accumulated size has reached 95% of the maximum
uncompressed blob size; after the step the block's group kind is the
item's (groups never mix kinds), and when the item could be added the
block is simply extended; `close()` flushes a final nonempty block. -/
theorem C5_pbf_flush_condition (st : PBFEncoderState) (it : PBFItem) :
    ((pbfStep st it).flushed =
      st.flushed ++
        (if can_add st.block it.kind = false ∧ st.block.count ≠ 0 then
          [st.block] else [])) ∧
    (can_add st.block it.kind = false ↔
      (it.kind ≠ st.block.ptype ∨
        st.block.count ≥ max_entities_per_block ∨
        st.block.bytes ≥ max_used_blob_size)) ∧
    (pbfStep st it).block.ptype = it.kind ∧
    (can_add st.block it.kind = true →
      (pbfStep st it).block = addToBlock st.block it) ∧
    (pbfClose st).flushed =
      st.flushed ++ (if st.block.count ≠ 0 then [st.block] else []) := by
  refine ⟨?_, ?_, ?_, ?_, ?_⟩
  · by_cases hca : can_add st.block it.kind
    · simp [pbfStep, switch_primitive_block_type, hca]
    · by_cases hc0 : st.block.count = 0
      · simp [pbfStep, switch_primitive_block_type, store_primitive_block,
          hca, hc0]
      · simp [pbfStep, switch_primitive_block_type, store_primitive_block,
          hca, hc0]
  · unfold can_add
    split_ifs with h1 h2
    · simp [h1]
    · simp [h1, h2]
    · simp only [decide_eq_false_iff_not, Nat.not_lt]
      constructor
      · intro h; exact Or.inr (Or.inr h)
      · intro h
        rcases h with h | h | h
        · exact absurd h h1
        · exact absurd h h2
        · exact h
  · by_cases hca : can_add st.block it.kind
    · have ht := can_add_type st.block it.kind hca
      simp [pbfStep, switch_primitive_block_type, addToBlock, hca]
      exact ht.symm
    · simp [pbfStep, switch_primitive_block_type, addToBlock, resetBlock, hca]
  · intro hca
    simp [pbfStep, switch_primitive_block_type, hca]
  · unfold pbfClose store_primitive_block
    by_cases hc0 : st.block.count = 0
    · simp [hc0]
    · simp [hc0]

/-- Witness for C5: a nodes-typed block with 5 entities and 100 bytes
accepts another node and is simply extended. -/
theorem C5_witness :
    (pbfStep { block := { ptype := .nodes, count := 5, bytes := 100 },
               flushed := [] } { kind := .nodes, addBytes := 32 }).block =
      addToBlock { ptype := PGroupType.nodes, count := 5, bytes := 100 }
        { kind := PGroupType.nodes, addBytes := 32 } :=
  (C5_pbf_flush_condition
    { block := { ptype := .nodes, count := 5, bytes := 100 },
      flushed := [] }
    { kind := .nodes, addBytes := 32 }).2.2.2.1 (by decide)

/-- C8 counterexample: a non-historical file with
`force_visible_flag = "true"` but `add_metadata = "false"` gets no
`visible` attribute at all — `write_meta` emits it only inside the
`m_add_metadata` branch — so the claim fails as stated. -/
theorem C8_counterexample :
    is_true "true" = true ∧
    xml_meta_for
        { add_metadata := "false", force_visible_flag := "true",
          xml_change_format := "false",
          has_multiple_object_versions := false }
        { oid := 1, version := 2, timestamp := 3, userAnonymous := true,
          uid := 0, changeset := 4, visible := true } =
      [MetaAttr.idAttr 1] := by
  exact ⟨rfl, rfl⟩

/-- C8 amended: for every output file with `force_visible_flag` set to
"true", the XML encoder emits a `visible="true|false"` attribute on
every written object — even for non-historical files — provided metadata
writing is enabled (`add_metadata` is not "false") and the file is not
an osmChange file (`xml_change_format` not "true"). -/
theorem C8_force_visible_flag (f : OutputFile) (o : XmlObj)
    (hf : is_true f.force_visible_flag = true)
    (hmeta : fmt_add_metadata f = true)
    (hchg : is_true f.xml_change_format = false) :
    MetaAttr.visibleAttr o.visible ∈ xml_meta_for f o := by
  unfold xml_meta_for write_meta blk_write_visible_flag
    fmt_write_visible_flag
  rw [hmeta, hf, hchg]
  simp

/-- Witness for C8: a non-historical file with the force flag set emits
the visible attribute. -/
theorem C8_witness :
    MetaAttr.visibleAttr true ∈
      xml_meta_for
        { add_metadata := "true", force_visible_flag := "true",
          xml_change_format := "false",
          has_multiple_object_versions := false }
        { oid := 1, version := 1, timestamp := 0, userAnonymous := true,
          uid := 0, changeset := 0, visible := true } := by
  have h := C8_force_visible_flag
    { add_metadata := "true", force_visible_flag := "true",
      xml_change_format := "false", has_multiple_object_versions := false }
    { oid := 1, version := 1, timestamp := 0, userAnonymous := true,
      uid := 0, changeset := 0, visible := true }
    (by decide) (by decide) (by decide)
  exact h

end Osmium
